import Mathlib

/-! # kblockd: the disk registry and the mount controller

A shallow embedding of `src/kdiskmanager.hpp` and `src/kdiskmanager.cpp`.

* `QByteArray` and `QString` values are Lean `String`s (character lists where
  the code works character by character); a NULL `const char*` converts to the
  empty string exactly as the Qt conversions do.
* `int` is `Int`; the only arithmetic on it here is a division by a positive
  constant, so no wrap-around arises.
* The outside world (udev database, `/proc/mounts`, the file system, the
  executable search path, system calls, subprocesses) is passed in explicitly.
* Actions on the outside world are recorded as a list of `Effect`s, signals as
  a list of `Signal`s.
-/

set_option autoImplicit false

namespace KBlockd

/-! ## KDiskInfo -/

/-- The method `QByteArray::isEmpty` / `QString::isEmpty`. -/
def isEmpty (s : String) : Bool := decide (s = "")

/-- The enum `KDiskInfo::KDiskType`. -/
inductive KDiskType where
  | None
  | Disk
  | Partition
  deriving DecidableEq, Repr

/-- The class `KDiskInfo` (kdiskmanager.hpp); `size` is in kilobytes. -/
structure KDiskInfo where
  name : String
  label : String
  fstype : String
  fsuuid : String
  size : Int
  type : KDiskType
  deriving DecidableEq, Repr

namespace KDiskInfo

/-- The default constructor `KDiskInfo::KDiskInfo()`: empty strings, size 0,
type `None`. -/
def null : KDiskInfo :=
  { name := "", label := "", fstype := "", fsuuid := "", size := 0, type := KDiskType.None }

/-- The method `KDiskInfo::isNull`. -/
def isNull (r : KDiskInfo) : Bool :=
  if isEmpty r.name || isEmpty r.fsuuid || decide (r.type = KDiskType.None) then
    true
  else
    false

/-- The operator `KDiskInfo::operator==`: records are compared by name only. -/
def eqv (a b : KDiskInfo) : Bool := decide (a.name = b.name)

/-- The method `KDiskInfo::fancySize`; `QString("%1 Kb").arg(size)` renders the
integer in decimal, `/` on positive `int`s truncates. -/
def fancySize (r : KDiskInfo) : String :=
  if r.size < 1 then
    "unknown"
  else if r.size < 999 then
    toString r.size ++ " Kb"
  else if r.size < 999999 then
    toString (Int.tdiv r.size 1000) ++ " Mb"
  else
    toString (Int.tdiv r.size 1000000) ++ " Gb"

/-- The method `KDiskInfo::fancyName`. -/
def fancyName (r : KDiskInfo) : String :=
  if !isEmpty r.label then
    r.label ++ " (" ++ fancySize r ++ ")"
  else
    r.fsuuid ++ " (" ++ fancySize r ++ ")"

/-- The method `KDiskInfo::fancyType`. -/
def fancyType (r : KDiskInfo) : String :=
  match r.type with
  | KDiskType.None => "None"
  | KDiskType.Disk => "Disk"
  | KDiskType.Partition => "Partition"

end KDiskInfo

/-! ## The udev database and the probe -/

/-- The properties of a udev device that `KDiskManagerPrivate::info` reads;
`none` is the NULL that `udev_device_get_property_value` returns for a
property the device does not have. -/
structure UdevProps where
  DEVNAME : Option String
  ID_FS_LABEL : Option String
  ID_FS_TYPE : Option String
  ID_FS_UUID : Option String
  DEVTYPE : Option String
  ID_PART_ENTRY_SIZE : Option String

/-- The udev database at one moment: `udev_device_new_from_syspath` by syspath,
`none` when it returns NULL. -/
abbrev UdevDb := String → Option UdevProps

/-- Conversion of a `const char*` to `QByteArray` / `QString`: NULL gives the
empty value. -/
def fromCStr (s : Option String) : String := s.getD ""

/-- Characters after the last slash of a character list (the whole list when
it has no slash). -/
def fileNameChars : List Char → List Char
  | [] => []
  | c :: cs => if cs.contains '/' then fileNameChars cs else if c = '/' then cs else c :: cs

/-- The method `QFileInfo::fileName`: the path without its directory part. -/
def fileName (path : String) : String := String.mk (fileNameChars path.data)

/-- The device record `KDiskManagerPrivate::info` builds from a udev device;
`toInt` is `QByteArray::toInt`. -/
def infoOfProps (toInt : String → Int) (dev : UdevProps) : KDiskInfo :=
  let devtype := fromCStr dev.DEVTYPE
  { name := fromCStr dev.DEVNAME
    label := fromCStr dev.ID_FS_LABEL
    fstype := fromCStr dev.ID_FS_TYPE
    fsuuid := fromCStr dev.ID_FS_UUID
    type :=
      if devtype = "disk" then KDiskType.Disk
      else if devtype = "partition" then KDiskType.Partition
      else KDiskType.None
    size := Int.tdiv (toInt (fromCStr dev.ID_PART_ENTRY_SIZE)) 2 }

/-! ## KDiskManagerPrivate: the registry and the event drain -/

/-- The signals of `KDiskManagerPrivate`, which `KDiskManager` forwards as
`added`, `changed` and `removed`. -/
inductive Signal where
  | addedDisk (disk : KDiskInfo)
  | changedDisk (disk : KDiskInfo)
  | removedDisk (disk : KDiskInfo)
  deriving DecidableEq, Repr

/-- The state of `KDiskManagerPrivate`: the registry `m_disks`, whether
`m_udev` and `m_monitor` are non-NULL, whether the one second timer was
started, and the signals emitted so far (oldest first). -/
structure KDiskManagerPrivate where
  m_disks : List KDiskInfo
  hasUdev : Bool
  hasMonitor : Bool
  timerStarted : Bool
  emitted : List Signal

/-- A device received from the udev monitor: the DEVNAME property and the
action, either of which may be NULL. -/
structure UdevDevice where
  devname : Option String
  action : Option String

/-- The method `QList<KDiskInfo>::removeAll`: drops every element that
`operator==` finds equal to `t`, keeping the order of the others. -/
def removeAll (l : List KDiskInfo) (t : KDiskInfo) : List KDiskInfo :=
  l.filter (fun x => !KDiskInfo.eqv x t)

namespace KDiskManagerPrivate

/-- The method `KDiskManagerPrivate::info`, reading the udev database `db`. -/
def info (toInt : String → Int) (d : KDiskManagerPrivate) (db : UdevDb) (disk : String) :
    KDiskInfo :=
  if !d.hasUdev then
    KDiskInfo.null
  else
    match db ("/sys/class/block/" ++ fileName disk) with
    | some dev => infoOfProps toInt dev
    | none => KDiskInfo.null

/-- The population loop of the constructor: every entry of `/sys/class/block`
is probed (against the database as it is at that moment) and appended when the
result is not null. -/
def populate (toInt : String → Int) (d : KDiskManagerPrivate) :
    List (String × UdevDb) → KDiskManagerPrivate
  | [] => d
  | (entry, db) :: rest =>
    let di := info toInt d db entry
    if !di.isNull then
      populate toInt { d with m_disks := d.m_disks ++ [di] } rest
    else
      populate toInt d rest

/-- The constructor `KDiskManagerPrivate::KDiskManagerPrivate`: `udevOk` and
`monitorOk` say whether `udev_new` and `udev_monitor_new_from_netlink` return
non-NULL, `entries` is the directory listing paired with the database seen by
each probe. -/
def create (toInt : String → Int) (udevOk monitorOk : Bool) (entries : List (String × UdevDb)) :
    KDiskManagerPrivate :=
  let d0 : KDiskManagerPrivate :=
    { m_disks := [], hasUdev := udevOk, hasMonitor := udevOk && monitorOk,
      timerStarted := false, emitted := [] }
  let d1 := if udevOk then populate toInt d0 entries else d0
  if !d1.hasUdev || !d1.hasMonitor then d1 else { d1 with timerStarted := true }

/-- The `foreach` of the remove branch: scans a copy of the registry for the
first record whose name is the event's, removes every record equal to it,
emits `removedDisk` with it and stops. -/
def removeScan (name : String) (d : KDiskManagerPrivate) : List KDiskInfo → KDiskManagerPrivate
  | [] => d
  | i :: rest =>
    if i.name = name then
      { d with m_disks := removeAll d.m_disks i, emitted := d.emitted ++ [Signal.removedDisk i] }
    else
      removeScan name d rest

/-- One iteration of the `while (dev)` loop of `timerEvent`: the device `dev`
is handled against the udev database `db` of that moment. -/
def handleDevice (toInt : String → Int) (d : KDiskManagerPrivate) (dev : UdevDevice)
    (db : UdevDb) : KDiskManagerPrivate :=
  let name := fromCStr dev.devname
  if dev.action = some "add" then
    let i := info toInt d db name
    if !i.isNull then
      { d with m_disks := d.m_disks ++ [i], emitted := d.emitted ++ [Signal.addedDisk i] }
    else
      d
  else if dev.action = some "change" then
    let i := info toInt d db name
    if !i.isNull then
      { d with m_disks := removeAll d.m_disks i ++ [i],
               emitted := d.emitted ++ [Signal.changedDisk i] }
    else
      d
  else if dev.action = some "remove" then
    removeScan name d d.m_disks
  else
    d

/-- The method `KDiskManagerPrivate::timerEvent`: drains the queue of the udev
monitor, handling each device in turn. -/
def timerEvent (toInt : String → Int) (d : KDiskManagerPrivate) :
    List (UdevDevice × UdevDb) → KDiskManagerPrivate
  | [] => d
  | (dev, db) :: queue => timerEvent toInt (handleDevice toInt d dev db) queue

/-- One tick of the event loop: `timerEvent` runs only when the constructor
started the timer. -/
def tick (toInt : String → Int) (d : KDiskManagerPrivate) (queue : List (UdevDevice × UdevDb)) :
    KDiskManagerPrivate :=
  if d.timerStarted then timerEvent toInt d queue else d

/-- Any number of ticks, one queue per tick. -/
def ticks (toInt : String → Int) (d : KDiskManagerPrivate) :
    List (List (UdevDevice × UdevDb)) → KDiskManagerPrivate
  | [] => d
  | queue :: later => ticks toInt (tick toInt d queue) later

end KDiskManagerPrivate

/-- The method `KDiskManager::disks`. -/
def disks (d : KDiskManagerPrivate) : List KDiskInfo := d.m_disks

/-! ## The mount table -/

/-- What can stop a call short of its return value: `QList::at` with an index
that is out of range (an assertion failure or an invalid read), or the
iteration bound of the model running out. -/
inductive Fault where
  | indexOutOfRange
  | outOfFuel
  deriving DecidableEq, Repr

deriving instance DecidableEq for Except

/-- The function `QChar::isSpace`, which also is what `\s` matches in a
`QRegExp`: the space, U+0009 to U+000D, U+0085, U+00A0 and the Unicode
separators. -/
def isSpace (c : Char) : Bool :=
  c.toNat = 0x20 || (0x09 ≤ c.toNat && c.toNat ≤ 0x0D) || c.toNat = 0x85 || c.toNat = 0xA0 ||
  c.toNat = 0x1680 || (0x2000 ≤ c.toNat && c.toNat ≤ 0x200A) || c.toNat = 0x2028 ||
  c.toNat = 0x2029 || c.toNat = 0x202F || c.toNat = 0x205F || c.toNat = 0x3000

/-- The method `QIODevice::readLine` on the unread part of a file: the
characters up to and including the first newline, and what stays unread. -/
def readLine : List Char → List Char × List Char
  | [] => ([], [])
  | c :: cs => if c = '\n' then ([c], cs) else ((c :: (readLine cs).1), (readLine cs).2)

/-- The method `QString::split` with a one character separator and the default
`KeepEmptyParts`. -/
def split (sep : Char) : List Char → List (List Char)
  | [] => [[]]
  | c :: cs =>
    if c = sep then
      [] :: split sep cs
    else
      match split sep cs with
      | [] => [[c]]
      | f :: fs => (c :: f) :: fs

/-- The expression `line.split(" ").at(1)`. -/
def fieldAt1 (line : List Char) : Except Fault (List Char) :=
  match (split ' ' line)[1]? with
  | some f => Except.ok f
  | none => Except.error Fault.indexOutOfRange

/-- The `while (true)` loop of `KDiskManager::mountpoint` over the unread part
`file` of `/proc/mounts`; `pattern line` is `pattern.indexIn(line) >= 0` and
`result` the value of the variable `result`; `mounts.atEnd()` is taken to hold
exactly when nothing is left unread. Each turn reads at least one character
unless the file is at its end, so `file.length + 1` turns suffice. -/
def mountpointLoop (pattern : List Char → Bool) :
    Nat → List Char → List Char → Except Fault (List Char)
  | 0, _, _ => Except.error Fault.outOfFuel
  | fuel + 1, file, result =>
    let line := (readLine file).1
    let rest := (readLine file).2
    if pattern line then
      match fieldAt1 line with
      | Except.error e => Except.error e
      | Except.ok field =>
        if rest.isEmpty then Except.ok field else mountpointLoop pattern fuel rest field
    else
      if rest.isEmpty then Except.ok result else mountpointLoop pattern fuel rest result

/-! ## The host -/

/-- What `KDiskManager` asks of its host at the moment of one call. -/
structure Host where
  /-- Matching with `QRegExp`: `QRegExp(pattern).indexIn(subject) >= 0`. -/
  regExpMatch : String → String → Bool
  /-- The text of `/proc/mounts`, `none` when it cannot be opened. -/
  procMounts : Option String
  /-- The function `QStandardPaths::findExecutable`: empty when not found. -/
  findExecutable : String → String
  /-- The method `QFileInfo::exists`. -/
  fileExists : String → Bool
  /-- The result of `QDir(dir).mkdir(name)`. -/
  mkdirOk : String → String → Bool
  /-- The return value of `::mount(source, target, fstype, 0, NULL)`. -/
  mountRv : String → String → String → Int
  /-- The return value of `::umount2(target, MNT_DETACH)`. -/
  umount2Rv : String → Int
  /-- The value of `QProcess::exitCode` once the started program is no longer
  running. -/
  exitCode : String → List String → Int
  /-- The result of `QFile(path).open(QFile::WriteOnly)`. -/
  openWriteOk : String → Bool

/-- The actions of `KDiskManager` on its host. -/
inductive Effect where
  | mkdir (dir name : String)
  | mountCall (source target fstype : String) (flags : Nat)
  | umount2Call (target : String) (flags : Nat)
  | startProcess (program : String) (arguments : List String)
  | openWrite (path : String)
  | write (path data : String)
  deriving DecidableEq, Repr

/-- The flag `MNT_DETACH` of `sys/mount.h`. -/
def MNT_DETACH : Nat := 2

/-- The return value of a call together with the actions it performed, in
order. -/
structure Outcome where
  ret : Bool
  effects : List Effect
  deriving DecidableEq, Repr

/-- The list `s_knownfstypes`. -/
def s_knownfstypes : List String :=
  ["ext2", "ext3", "ext4", "jfs", "xfs", "btrfs", "ntfs", "vfat", "minix", "reiserfs"]

/-- The method `KDiskManager::supported`. -/
def supported (h : Host) : List String :=
  s_knownfstypes.filter (fun fstype =>
      !isEmpty (h.findExecutable ("fsck." ++ fstype)) &&
      !isEmpty (h.findExecutable ("mkfs." ++ fstype))) ++
    (if !isEmpty (h.findExecutable "mkswap") then ["swap"] else [])

/-- The method `KDiskManager::mountpoint`. -/
def mountpoint (h : Host) (disk : String) : Except Fault String :=
  match h.procMounts with
  | none => Except.ok ""
  | some mounts =>
    match mountpointLoop (fun line => h.regExpMatch ("^" ++ disk ++ "\\s") (String.mk line))
        (mounts.data.length + 1) mounts.data [] with
    | Except.error e => Except.error e
    | Except.ok result => Except.ok (String.mk result)

/-- The method `KDiskManager::mounted`. -/
def mounted (h : Host) (disk : String) : Except Fault Bool :=
  match mountpoint h disk with
  | Except.error e => Except.error e
  | Except.ok result => Except.ok (!isEmpty result)

/-- Characters before the last slash of a character list (nothing when it has
no slash). -/
def beforeLastSlash : List Char → List Char
  | [] => []
  | c :: cs => if cs.contains '/' then c :: beforeLastSlash cs else []

/-- The path of `QFileInfo::dir`: what stands before the last slash, `.` for a
path without slash and `/` when the only slash is the first character. -/
def dirPath (path : String) : String :=
  if !path.data.contains '/' then "."
  else if beforeLastSlash path.data = [] then "/"
  else String.mk (beforeLastSlash path.data)

/-- The method `KDiskManager::mount`. -/
def mount (h : Host) (disk : KDiskInfo) (directory : String) : Except Fault Outcome :=
  if disk.isNull then
    Except.ok ⟨false, []⟩
  else
    match mounted h disk.name with
    | Except.error e => Except.error e
    | Except.ok true => Except.ok ⟨true, []⟩
    | Except.ok false =>
      let mountdir := if isEmpty directory then "/mnt/" ++ disk.fsuuid else directory
      let call := Effect.mountCall disk.name mountdir disk.fstype 0
      let rv := h.mountRv disk.name mountdir disk.fstype
      if h.fileExists mountdir then
        if rv ≠ 0 then Except.ok ⟨false, [call]⟩ else Except.ok ⟨true, [call]⟩
      else if !h.mkdirOk (dirPath mountdir) (fileName mountdir) then
        Except.ok ⟨false, [Effect.mkdir (dirPath mountdir) (fileName mountdir)]⟩
      else if rv ≠ 0 then
        Except.ok ⟨false, [Effect.mkdir (dirPath mountdir) (fileName mountdir), call]⟩
      else
        Except.ok ⟨true, [Effect.mkdir (dirPath mountdir) (fileName mountdir), call]⟩

/-- The method `KDiskManager::unmount`. -/
def unmount (h : Host) (disk : KDiskInfo) : Except Fault Outcome :=
  if disk.isNull then
    Except.ok ⟨false, []⟩
  else
    match mountpoint h disk.name with
    | Except.error e => Except.error e
    | Except.ok mountdir =>
      if isEmpty mountdir then
        Except.ok ⟨true, []⟩
      else if h.umount2Rv mountdir ≠ 0 then
        Except.ok ⟨false, [Effect.umount2Call mountdir MNT_DETACH]⟩
      else
        Except.ok ⟨true, [Effect.umount2Call mountdir MNT_DETACH]⟩

/-- The method `KDiskManager::mkfs`; the wait loop is taken to end, with
`h.exitCode` the exit code it then reads. -/
def mkfs (h : Host) (disk : KDiskInfo) (fstype : String) : Except Fault Outcome :=
  if disk.isNull then
    Except.ok ⟨false, []⟩
  else if !(supported h).contains fstype then
    Except.ok ⟨false, []⟩
  else
    match mounted h disk.name with
    | Except.error e => Except.error e
    | Except.ok true => Except.ok ⟨false, []⟩
    | Except.ok false =>
      let program := if fstype = "swap" then "mkswap" else "mkfs." ++ fstype
      if h.exitCode program [disk.name] ≠ 0 then
        Except.ok ⟨false, [Effect.startProcess program [disk.name]]⟩
      else
        Except.ok ⟨true, [Effect.startProcess program [disk.name]]⟩

/-- The method `KDiskManager::fsck`; the wait loop is taken to end, with
`h.exitCode` the exit code it then reads. -/
def fsck (h : Host) (disk : KDiskInfo) : Except Fault Outcome :=
  if disk.isNull then
    Except.ok ⟨false, []⟩
  else
    match mounted h disk.name with
    | Except.error e => Except.error e
    | Except.ok true => Except.ok ⟨false, []⟩
    | Except.ok false =>
      if h.exitCode "fsck" ["-p", disk.name] ≠ 0 then
        Except.ok ⟨false, [Effect.startProcess "fsck" ["-p", disk.name]]⟩
      else
        Except.ok ⟨true, [Effect.startProcess "fsck" ["-p", disk.name]]⟩

/-- The `foreach` of `KDiskManager::rescan` over the records still to visit;
`partprobe` and `partx` are the two `findExecutable` results and `done` the
actions performed so far. -/
def rescanLoop (h : Host) (partprobe partx : String) : List KDiskInfo → List Effect → Outcome
  | [], done => ⟨true, done⟩
  | disk :: rest, done =>
    if disk.type = KDiskType.Partition then
      rescanLoop h partprobe partx rest done
    else if !isEmpty partprobe then
      if h.exitCode partprobe [disk.name] ≠ 0 then
        ⟨false, done ++ [Effect.startProcess partprobe [disk.name]]⟩
      else
        rescanLoop h partprobe partx rest (done ++ [Effect.startProcess partprobe [disk.name]])
    else if !isEmpty partx then
      if h.exitCode partx ["-u", disk.name] ≠ 0 then
        ⟨false, done ++ [Effect.startProcess partx ["-u", disk.name]]⟩
      else
        rescanLoop h partprobe partx rest
          (done ++ [Effect.startProcess partx ["-u", disk.name]])
    else
      let rescanpath := "/sys/block/" ++ fileName disk.name ++ "/device/rescan"
      if h.openWriteOk rescanpath then
        rescanLoop h partprobe partx rest
          (done ++ [Effect.openWrite rescanpath, Effect.write rescanpath "1"])
      else
        ⟨false, done ++ [Effect.openWrite rescanpath]⟩

/-- The method `KDiskManager::rescan` on the registry snapshot `disks()`. -/
def rescan (h : Host) (d : KDiskManagerPrivate) : Outcome :=
  rescanLoop h (h.findExecutable "partprobe") (h.findExecutable "partx") (disks d) []

/-! ## Reading the mount table, in the words of the specification -/

/-- The lines of a file as successive `readLine` calls deliver them until
`atEnd`: each with its newline, and one empty line for an empty file. -/
def fileLines : List Char → List (List Char)
  | [] => [[]]
  | c :: cs =>
    if c = '\n' then
      if cs = [] then [[c]] else [c] :: fileLines cs
    else
      match fileLines cs with
      | [] => [[c]]
      | l :: ls => (c :: l) :: ls

/-- The line begins with the device node name followed by a whitespace
character. -/
def beginsWithThenSpace : List Char → List Char → Bool
  | [], [] => false
  | [], c :: _ => isSpace c
  | _ :: _, [] => false
  | d :: ds, c :: cs => decide (d = c) && beginsWithThenSpace ds cs

/-- The character list is at its end or goes on with a whitespace character. -/
def endsField : List Char → Bool
  | [] => true
  | c :: _ => isSpace c

/-- The whitespace delimited fields of a line: its maximal runs of characters
that are not whitespace. -/
def wsFields : List Char → List (List Char)
  | [] => []
  | c :: cs =>
    if isSpace c then
      wsFields cs
    else if endsField cs then
      [c] :: wsFields cs
    else
      match wsFields cs with
      | [] => [[c]]
      | f :: fs => (c :: f) :: fs

/-- The shape of a line of `/proc/mounts` as the kernel writes it: a non-empty
device field without whitespace, one space, a non-empty mount point without
whitespace (whitespace inside a field is written as an octal escape), one
space, the rest. -/
def ProcMountsLine (line : List Char) : Prop :=
  ∃ dev field rest : List Char,
    line = dev ++ ' ' :: (field ++ ' ' :: rest) ∧
    dev ≠ [] ∧ (∀ c ∈ dev, isSpace c = false) ∧
    field ≠ [] ∧ ∀ c ∈ field, isSpace c = false

/-- The last element of a list that satisfies `p`. -/
def lastSuch {α : Type} (p : α → Bool) : List α → Option α
  | [] => none
  | a :: as =>
    match lastSuch p as with
    | some b => some b
    | none => if p a then some a else none

/-- The loop of `mountpoint` told line by line: every line that matches
replaces the result by its field at index 1, or stops the run when the line
has no such field. -/
def scanLines (pattern : List Char → Bool) :
    List (List Char) → List Char → Except Fault (List Char)
  | [], result => Except.ok result
  | l :: ls, result =>
    if pattern l then
      match fieldAt1 l with
      | Except.error e => Except.error e
      | Except.ok field => scanLines pattern ls field
    else
      scanLines pattern ls result

/-- The characters with a special meaning in a `QRegExp` pattern: those that
`QRegExp::escape` puts a backslash before. -/
def isRegExpSpecial (c : Char) : Bool :=
  c = '$' || c = '(' || c = ')' || c = '*' || c = '+' || c = '.' || c = '?' || c = '[' ||
  c = '\\' || c = ']' || c = '^' || c = '\x7b' || c = '|' || c = '\x7d'

/-- The pattern, read after a leading `^`, is made only of ordinary characters,
of `.` and of `\s`. -/
def simpleAtoms : List Char → Bool
  | [] => true
  | [p] => decide (p = '.') || !isRegExpSpecial p
  | p :: q :: ps =>
    if p = '\\' then
      decide (q = 's') && simpleAtoms ps
    else
      (decide (p = '.') || !isRegExpSpecial p) && simpleAtoms (q :: ps)

/-- The pattern is `^` followed by ordinary characters, `.` and `\s` only: the
patterns on which `simpleRegExp` is `QRegExp`. -/
def simplePattern (pattern : String) : Bool :=
  match pattern.data with
  | '^' :: p => simpleAtoms p
  | _ => false

/-- Matching of a pattern made of ordinary characters, `.` and `\s` at the
start of the subject, as `QRegExp` does it: an ordinary character matches
itself, `.` matches any character and `\s` any `QChar::isSpace` character. -/
def simpleMatchHere : List Char → List Char → Bool
  | [], _ => true
  | _ :: _, [] => false
  | [p], c :: _ => if p = '\\' then false else decide (p = '.') || decide (p = c)
  | p :: q :: ps, c :: cs =>
    if p = '\\' then
      if q = 's' then isSpace c && simpleMatchHere ps cs else false
    else
      (decide (p = '.') || decide (p = c)) && simpleMatchHere (q :: ps) cs

/-- The value of `QRegExp(pattern).indexIn(subject) >= 0` for the patterns that
`simplePattern` accepts, which are those `mountpoint` builds from a device
node name whose only special character, if any, is `.`. Any other pattern is
outside this stand-in and gets the value false. -/
def simpleRegExp (pattern subject : String) : Bool :=
  match pattern.data with
  | '^' :: p => simpleAtoms p && simpleMatchHere p subject.data
  | _ => false

/-! ## The rescan, in the words of the specification -/

/-- The path of the rescan control file of a device. -/
def rescanPath (disk : KDiskInfo) : String :=
  "/sys/block/" ++ fileName disk.name ++ "/device/rescan"

/-- Whether the rescan method in use succeeds on a record: exit code 0 of
`partprobe` when it is installed, else exit code 0 of `partx -u` when that is
installed, else the opening of the rescan control file. -/
def rescanMethodOk (h : Host) (partprobe partx : String) (disk : KDiskInfo) : Bool :=
  if !isEmpty partprobe then decide (h.exitCode partprobe [disk.name] = 0)
  else if !isEmpty partx then decide (h.exitCode partx ["-u", disk.name] = 0)
  else h.openWriteOk (rescanPath disk)

/-- The actions of one run of the rescan method in use on a record: one
started tool, or one opening of the control file followed, when it opens, by
the write of `1`. -/
def rescanMethodEffects (h : Host) (partprobe partx : String) (disk : KDiskInfo) :
    List Effect :=
  if !isEmpty partprobe then [Effect.startProcess partprobe [disk.name]]
  else if !isEmpty partx then [Effect.startProcess partx ["-u", disk.name]]
  else if h.openWriteOk (rescanPath disk) then
    [Effect.openWrite (rescanPath disk), Effect.write (rescanPath disk) "1"]
  else [Effect.openWrite (rescanPath disk)]

/-- The records a rescan works on: those of the snapshot that are not
partitions, in snapshot order. -/
def rescanTargets (snapshot : List KDiskInfo) : List KDiskInfo :=
  snapshot.filter (fun disk => decide (disk.type ≠ KDiskType.Partition))

/-! ## Concrete data used in the examples -/

/-- A manager with udev and monitor set up, an empty registry and a running
timer. -/
def emptyManager : KDiskManagerPrivate :=
  { m_disks := [], hasUdev := true, hasMonitor := true, timerStarted := true, emitted := [] }

/-- The udev properties of the partition `/dev/sdb1` carrying the label
`label`. -/
def sdb1Props (label : String) : UdevProps :=
  { DEVNAME := some "/dev/sdb1", ID_FS_LABEL := some label, ID_FS_TYPE := some "ext4",
    ID_FS_UUID := some "ABCD-1234", DEVTYPE := some "partition",
    ID_PART_ENTRY_SIZE := some "2048" }

/-- A udev database that knows only `/dev/sdb1`, with the label `label`. -/
def sdb1Db (label : String) : UdevDb :=
  fun syspath => if syspath = "/sys/class/block/sdb1" then some (sdb1Props label) else none

/-- A stand-in for `QByteArray::toInt` that is right on the one size string
used below. -/
def sampleToInt (s : String) : Int := if s = "2048" then 2048 else 0

/-- The record the probe builds for `/dev/sdb1` with the label `label`. -/
def sdb1 (label : String) : KDiskInfo :=
  { name := "/dev/sdb1", label := label, fstype := "ext4", fsuuid := "ABCD-1234",
    size := 1024, type := KDiskType.Partition }

/-- A host whose `/proc/mounts` has the text `mounts`, with the tools
`fsck.ext4`, `mkfs.ext4` and `mkswap` installed, no directory present, and
every system call and subprocess succeeding. -/
def sampleHost (mounts : String) : Host :=
  { regExpMatch := simpleRegExp
    procMounts := some mounts
    findExecutable := fun program =>
      if program = "fsck.ext4" ∨ program = "mkfs.ext4" ∨ program = "mkswap" then
        "/sbin/" ++ program
      else ""
    fileExists := fun _ => false
    mkdirOk := fun _ _ => true
    mountRv := fun _ _ _ => 0
    umount2Rv := fun _ => 0
    exitCode := fun _ _ => 0
    openWriteOk := fun _ => true }

/-- A mount table in the format of `/proc/mounts` with `/dev/sdb1` mounted. -/
def mountsWithSdb1 : String :=
  "/dev/sda2 / ext4 rw 0 0\n/dev/sdb1 /media/usb ext4 rw 0 0\n"

/-- A mount table in the format of `/proc/mounts` without `/dev/sdb1`. -/
def mountsWithoutSdb1 : String :=
  "/dev/sda2 / ext4 rw 0 0\n/dev/sdb10 /srv ext4 rw 0 0\n"

/-- A mount table in the format of `/proc/mounts` with `/dev/pmem0p1`, the first
partition of the persistent memory disk `/dev/pmem0`, mounted on `/data`. -/
def mountsWithPmem : String :=
  "/dev/sda2 / ext4 rw 0 0\n/dev/pmem0p1 /data ext4 rw 0 0\n"

/-- The record of `/dev/pmem0.1`, the second namespace of the persistent
memory region 0 (the kernel names these disks `pmem<region>.<namespace>`). -/
def pmem0_1 : KDiskInfo :=
  { name := "/dev/pmem0.1", label := "", fstype := "xfs", fsuuid := "0000-0002",
    size := 0, type := KDiskType.Disk }

/-- A record of the given name and type with a filesystem on it. -/
def blockDevice (name : String) (type : KDiskType) : KDiskInfo :=
  { name := name, label := "", fstype := "ext4", fsuuid := "0000-0001", size := 0, type := type }

/-- A registry with the disk `/dev/sda`, its partition `/dev/sda1` and the
disks `/dev/sdb` and `/dev/sdc`. -/
def fourDevices : KDiskManagerPrivate :=
  { emptyManager with
    m_disks := [blockDevice "/dev/sda" KDiskType.Disk, blockDevice "/dev/sda1" KDiskType.Partition,
      blockDevice "/dev/sdb" KDiskType.Disk, blockDevice "/dev/sdc" KDiskType.Disk] }

/-- A host with `partprobe` installed, which exits with code 1 on `/dev/sdb`
and with code 0 on every other device. -/
def partprobeHost : Host :=
  { sampleHost "" with
    findExecutable := fun program => if program = "partprobe" then "/usr/sbin/partprobe" else ""
    exitCode := fun _ arguments => if arguments = ["/dev/sdb"] then 1 else 0 }

/-! ## Theorems -/

section Registry

theorem isEmpty_eq_false_iff (s : String) : isEmpty s = false ↔ s ≠ "" := by
  simp [isEmpty]

theorem isNull_eq_false_iff (r : KDiskInfo) :
    r.isNull = false ↔ r.name ≠ "" ∧ r.fsuuid ≠ "" ∧ r.type ≠ KDiskType.None := by
  simp [KDiskInfo.isNull, isEmpty, not_or, and_assoc]

/-- C1: a device record is valid (`isNull` is false) exactly when its name and
its filesystem UUID are non-empty and its type is not `None`; replacing label,
filesystem type and size by any other values leaves `isNull` unchanged. -/
theorem C1_valid_iff (r : KDiskInfo) :
    (r.isNull = false ↔ r.name ≠ "" ∧ r.fsuuid ≠ "" ∧ r.type ≠ KDiskType.None) ∧
    (∀ (label fstype : String) (size : Int),
      KDiskInfo.isNull { r with label := label, fstype := fstype, size := size } = r.isNull) :=
  ⟨isNull_eq_false_iff r, fun _ _ _ => rfl⟩

open KDiskManagerPrivate

theorem info_congr (toInt : String → Int) (d d' : KDiskManagerPrivate) (db : UdevDb)
    (disk : String) (h : d'.hasUdev = d.hasUdev) :
    info toInt d' db disk = info toInt d db disk := by
  simp [info, h]

theorem removeAll_eq_filter_name (l : List KDiskInfo) (t : KDiskInfo) :
    removeAll l t = l.filter (fun x => decide (x.name ≠ t.name)) := by
  simp [removeAll, KDiskInfo.eqv]

theorem mem_removeAll (l : List KDiskInfo) (t x : KDiskInfo) :
    x ∈ removeAll l t ↔ x ∈ l ∧ x.name ≠ t.name := by
  simp [removeAll_eq_filter_name]

theorem handleDevice_change (toInt : String → Int) (d : KDiskManagerPrivate) (dev : UdevDevice)
    (db : UdevDb) (hact : dev.action = some "change")
    (hv : (info toInt d db (fromCStr dev.devname)).isNull = false) :
    handleDevice toInt d dev db =
      { d with
        m_disks := removeAll d.m_disks (info toInt d db (fromCStr dev.devname)) ++
          [info toInt d db (fromCStr dev.devname)],
        emitted := d.emitted ++ [Signal.changedDisk (info toInt d db (fromCStr dev.devname))] } := by
  simp [handleDevice, hact, hv]

theorem handleDevice_add (toInt : String → Int) (d : KDiskManagerPrivate) (dev : UdevDevice)
    (db : UdevDb) (hact : dev.action = some "add")
    (hv : (info toInt d db (fromCStr dev.devname)).isNull = false) :
    handleDevice toInt d dev db =
      { d with
        m_disks := d.m_disks ++ [info toInt d db (fromCStr dev.devname)],
        emitted := d.emitted ++ [Signal.addedDisk (info toInt d db (fromCStr dev.devname))] } := by
  simp [handleDevice, hact, hv]

theorem handleDevice_remove (toInt : String → Int) (d : KDiskManagerPrivate) (dev : UdevDevice)
    (db : UdevDb) (hact : dev.action = some "remove") :
    handleDevice toInt d dev db = removeScan (fromCStr dev.devname) d d.m_disks := by
  simp [handleDevice, hact]

/-- C2: from an empty registry, an add event for `n` whose probe gives the valid
record `r1` named `n` leaves exactly `r1` in `disks()`; a change event for `n`
whose probe gives the valid record `r2` named `n` with another label leaves
exactly `r2`; a remove event for `n` then empties `disks()` and emits
`removedDisk r2`, the record as it was just before the removal. -/
theorem C2_add_change_remove (toInt : String → Int) (d0 : KDiskManagerPrivate) (n : String)
    (db1 db2 db3 : UdevDb) (r1 r2 : KDiskInfo)
    (hempty : d0.m_disks = [])
    (h1 : info toInt d0 db1 n = r1) (h1v : r1.isNull = false) (h1n : r1.name = n)
    (h2 : info toInt d0 db2 n = r2) (h2v : r2.isNull = false) (h2n : r2.name = n)
    (_hlabel : r2.label ≠ r1.label) :
    (disks (timerEvent toInt d0 [(⟨some n, some "add"⟩, db1)]) = [r1] ∧ r1.name = n) ∧
    (disks (timerEvent toInt (timerEvent toInt d0 [(⟨some n, some "add"⟩, db1)])
        [(⟨some n, some "change"⟩, db2)]) = [r2] ∧ r2.name = n) ∧
    (∀ r ∈ disks (timerEvent toInt (timerEvent toInt (timerEvent toInt d0
        [(⟨some n, some "add"⟩, db1)]) [(⟨some n, some "change"⟩, db2)])
        [(⟨some n, some "remove"⟩, db3)]), r.name ≠ n) ∧
    (timerEvent toInt (timerEvent toInt (timerEvent toInt d0
        [(⟨some n, some "add"⟩, db1)]) [(⟨some n, some "change"⟩, db2)])
        [(⟨some n, some "remove"⟩, db3)]).emitted =
      d0.emitted ++ [Signal.addedDisk r1, Signal.changedDisk r2, Signal.removedDisk r2] := by
  have e1 : timerEvent toInt d0 [(⟨some n, some "add"⟩, db1)] =
      { d0 with m_disks := [r1], emitted := d0.emitted ++ [Signal.addedDisk r1] } := by
    simp [timerEvent, handleDevice, fromCStr, h1, h1v, hempty]
  have i2 : info toInt { d0 with m_disks := [r1], emitted := d0.emitted ++ [Signal.addedDisk r1] }
      db2 n = r2 := by
    rw [← h2]; exact info_congr toInt _ _ _ _ rfl
  have e2 : timerEvent toInt
      { d0 with m_disks := [r1], emitted := d0.emitted ++ [Signal.addedDisk r1] }
      [(⟨some n, some "change"⟩, db2)] =
      { d0 with m_disks := [r2],
                emitted := d0.emitted ++ [Signal.addedDisk r1, Signal.changedDisk r2] } := by
    simp [timerEvent, handleDevice, fromCStr, i2, h2v, removeAll, KDiskInfo.eqv, h1n, h2n]
  have e3 : timerEvent toInt
      { d0 with m_disks := [r2],
                emitted := d0.emitted ++ [Signal.addedDisk r1, Signal.changedDisk r2] }
      [(⟨some n, some "remove"⟩, db3)] =
      { d0 with m_disks := [],
                emitted := d0.emitted ++
                  [Signal.addedDisk r1, Signal.changedDisk r2, Signal.removedDisk r2] } := by
    simp [timerEvent, handleDevice, fromCStr, removeScan, removeAll, KDiskInfo.eqv, h2n]
  rw [e1, e2, e3]
  simp [disks, h1n, h2n]

/-- The scenario of C2 on `/dev/sdb1`, relabelled from `data` to `backup`. -/
theorem C2_add_change_remove_witness :
    disks (timerEvent sampleToInt (timerEvent sampleToInt emptyManager
        [(⟨some "/dev/sdb1", some "add"⟩, sdb1Db "data")])
        [(⟨some "/dev/sdb1", some "change"⟩, sdb1Db "backup")]) = [sdb1 "backup"] :=
  (C2_add_change_remove sampleToInt emptyManager "/dev/sdb1" (sdb1Db "data") (sdb1Db "backup")
    (sdb1Db "data") (sdb1 "data") (sdb1 "backup") rfl (by decide) (by decide) rfl
    (by decide) (by decide) rfl (by decide)).2.1.1

/-- C3 (evaluation of the code): the startup snapshot holds `/dev/sdb1` once,
so its names are pairwise distinct; one drained add event for the same node,
probed to the same valid record, then leaves two records named `/dev/sdb1` in
the registry. -/
theorem C3_repeated_add_duplicates :
    ((disks (create sampleToInt true true [("sdb1", sdb1Db "data")])).map KDiskInfo.name).Nodup ∧
    disks (ticks sampleToInt (create sampleToInt true true [("sdb1", sdb1Db "data")])
      [[(⟨some "/dev/sdb1", some "add"⟩, sdb1Db "data")]]) = [sdb1 "data", sdb1 "data"] ∧
    ¬ ((disks (ticks sampleToInt (create sampleToInt true true [("sdb1", sdb1Db "data")])
      [[(⟨some "/dev/sdb1", some "add"⟩, sdb1Db "data")]])).map KDiskInfo.name).Nodup := by
  decide

theorem nodup_names_removeAll (l : List KDiskInfo) (t : KDiskInfo)
    (h : (l.map KDiskInfo.name).Nodup) : ((removeAll l t).map KDiskInfo.name).Nodup := by
  rw [removeAll]
  exact (List.Sublist.map _ (List.filter_sublist l)).nodup h

theorem nodup_names_removeScan (name : String) (d : KDiskManagerPrivate)
    (h : (d.m_disks.map KDiskInfo.name).Nodup) (scan : List KDiskInfo) :
    ((removeScan name d scan).m_disks.map KDiskInfo.name).Nodup := by
  induction scan with
  | nil => simpa [removeScan] using h
  | cons i rest ih =>
    by_cases hi : i.name = name
    · simpa [removeScan, hi] using nodup_names_removeAll d.m_disks i h
    · simpa [removeScan, hi] using ih

theorem nodup_names_append_fresh (l : List KDiskInfo) (r : KDiskInfo)
    (h : (l.map KDiskInfo.name).Nodup) (hfresh : ∀ x ∈ l, x.name ≠ r.name) :
    ((l ++ [r]).map KDiskInfo.name).Nodup := by
  rw [List.map_append, List.nodup_append]
  refine ⟨h, by simp, ?_⟩
  intro a ha hb
  simp only [List.map_cons, List.map_nil, List.mem_singleton] at hb
  obtain ⟨x, hx, rfl⟩ := List.mem_map.mp ha
  exact hfresh x hx hb

/-- The events that keep the registry unique by name: every event except an
add whose probe is valid and named like a record already in the registry. -/
theorem nodup_names_handleDevice (toInt : String → Int) (d : KDiskManagerPrivate)
    (dev : UdevDevice) (db : UdevDb)
    (h : (d.m_disks.map KDiskInfo.name).Nodup)
    (hadd : dev.action = some "add" →
      (info toInt d db (fromCStr dev.devname)).isNull = false →
      ∀ x ∈ d.m_disks, x.name ≠ (info toInt d db (fromCStr dev.devname)).name) :
    ((handleDevice toInt d dev db).m_disks.map KDiskInfo.name).Nodup := by
  by_cases ha : dev.action = some "add"
  · cases hv : (info toInt d db (fromCStr dev.devname)).isNull
    · rw [handleDevice_add toInt d dev db ha hv]
      exact nodup_names_append_fresh _ _ h (hadd ha hv)
    · simpa [handleDevice, ha, hv] using h
  · by_cases hc : dev.action = some "change"
    · cases hv : (info toInt d db (fromCStr dev.devname)).isNull
      · rw [handleDevice_change toInt d dev db hc hv]
        refine nodup_names_append_fresh _ _ (nodup_names_removeAll _ _ h) ?_
        intro x hx
        exact ((mem_removeAll _ _ _).mp hx).2
      · simpa [handleDevice, hc, hv] using h
    · by_cases hr : dev.action = some "remove"
      · rw [handleDevice_remove toInt d dev db hr]
        exact nodup_names_removeScan _ d h _
      · simpa [handleDevice, ha, hc, hr] using h

/-- C4: a change event whose probe gives the valid record `r` turns the registry
`L` into `L` without the records named like `r` (the others in their order)
followed by `r`; exactly one record named like `r` remains and it is `r` with
all its fields, the records with another name are the same and in the same
order, and `changedDisk r` is emitted. -/
theorem C4_change_is_remove_then_insert (toInt : String → Int) (d : KDiskManagerPrivate)
    (dev : UdevDevice) (db : UdevDb) (r : KDiskInfo)
    (hact : dev.action = some "change")
    (hr : info toInt d db (fromCStr dev.devname) = r) (hv : r.isNull = false) :
    disks (handleDevice toInt d dev db) =
      (disks d).filter (fun x => decide (x.name ≠ r.name)) ++ [r] ∧
    (disks (handleDevice toInt d dev db)).filter (fun x => decide (x.name = r.name)) = [r] ∧
    (disks (handleDevice toInt d dev db)).filter (fun x => decide (x.name ≠ r.name)) =
      (disks d).filter (fun x => decide (x.name ≠ r.name)) ∧
    (handleDevice toInt d dev db).emitted = d.emitted ++ [Signal.changedDisk r] := by
  have hv' : (info toInt d db (fromCStr dev.devname)).isNull = false := by rw [hr]; exact hv
  rw [handleDevice_change toInt d dev db hact hv', hr]
  simp only [disks, removeAll_eq_filter_name]
  refine ⟨trivial, ?_, ?_, trivial⟩
  · rw [List.filter_append, List.filter_filter]
    simp
  · rw [List.filter_append, List.filter_filter]
    simp

/-- A change event relabelling `/dev/sdb1` in a registry that holds it twice and
also holds another device. -/
theorem C4_change_is_remove_then_insert_witness :
    disks (handleDevice sampleToInt
      { emptyManager with
        m_disks := [sdb1 "data", { sdb1 "x" with name := "/dev/sda" }, sdb1 "old"] }
      ⟨some "/dev/sdb1", some "change"⟩ (sdb1Db "backup")) =
      [{ sdb1 "x" with name := "/dev/sda" }, sdb1 "backup"] :=
  (C4_change_is_remove_then_insert sampleToInt
    { emptyManager with
      m_disks := [sdb1 "data", { sdb1 "x" with name := "/dev/sda" }, sdb1 "old"] }
    ⟨some "/dev/sdb1", some "change"⟩ (sdb1Db "backup") (sdb1 "backup") rfl (by decide)
    (by decide)).1.trans (by decide)

theorem valid_populate (toInt : String → Int) (entries : List (String × UdevDb)) :
    ∀ d : KDiskManagerPrivate, (∀ r ∈ d.m_disks, r.isNull = false) →
      ∀ r ∈ (populate toInt d entries).m_disks, r.isNull = false := by
  induction entries with
  | nil => intro d h; simpa [populate] using h
  | cons e rest ih =>
    obtain ⟨entry, db⟩ := e
    intro d h
    cases hv : (info toInt d db entry).isNull
    · simp only [populate, hv, Bool.not_false, if_true]
      apply ih
      intro r hr
      rcases List.mem_append.mp hr with hr | hr
      · exact h r hr
      · rw [List.mem_singleton.mp hr]; exact hv
    · simp only [populate, hv, Bool.not_true, Bool.false_eq_true, if_false]
      exact ih d h

theorem valid_create (toInt : String → Int) (udevOk monitorOk : Bool)
    (entries : List (String × UdevDb)) :
    ∀ r ∈ (create toInt udevOk monitorOk entries).m_disks, r.isNull = false := by
  have hp := valid_populate toInt entries
    { m_disks := [], hasUdev := udevOk, hasMonitor := udevOk && monitorOk,
      timerStarted := false, emitted := [] } (by simp)
  unfold create
  cases udevOk
  · simp
  · simp only [if_true]
    split
    · exact hp
    · exact hp

theorem valid_removeScan (name : String) (d : KDiskManagerPrivate)
    (h : ∀ r ∈ d.m_disks, r.isNull = false) (scan : List KDiskInfo) :
    ∀ r ∈ (removeScan name d scan).m_disks, r.isNull = false := by
  induction scan with
  | nil => simpa [removeScan] using h
  | cons i rest ih =>
    by_cases hi : i.name = name
    · intro r hr
      simp only [removeScan, hi, if_true] at hr
      exact h r ((mem_removeAll _ _ _).mp hr).1
    · simpa [removeScan, hi] using ih

theorem valid_handleDevice (toInt : String → Int) (d : KDiskManagerPrivate) (dev : UdevDevice)
    (db : UdevDb) (h : ∀ r ∈ d.m_disks, r.isNull = false) :
    ∀ r ∈ (handleDevice toInt d dev db).m_disks, r.isNull = false := by
  by_cases ha : dev.action = some "add"
  · cases hv : (info toInt d db (fromCStr dev.devname)).isNull
    · rw [handleDevice_add toInt d dev db ha hv]
      intro r hr
      rcases List.mem_append.mp hr with hr | hr
      · exact h r hr
      · rw [List.mem_singleton.mp hr]; exact hv
    · simpa [handleDevice, ha, hv] using h
  · by_cases hc : dev.action = some "change"
    · cases hv : (info toInt d db (fromCStr dev.devname)).isNull
      · rw [handleDevice_change toInt d dev db hc hv]
        intro r hr
        rcases List.mem_append.mp hr with hr | hr
        · exact h r ((mem_removeAll _ _ _).mp hr).1
        · rw [List.mem_singleton.mp hr]; exact hv
      · simpa [handleDevice, hc, hv] using h
    · by_cases hr : dev.action = some "remove"
      · rw [handleDevice_remove toInt d dev db hr]
        exact valid_removeScan _ d h _
      · simpa [handleDevice, ha, hc, hr] using h

theorem valid_timerEvent (toInt : String → Int) (queue : List (UdevDevice × UdevDb)) :
    ∀ d : KDiskManagerPrivate, (∀ r ∈ d.m_disks, r.isNull = false) →
      ∀ r ∈ (timerEvent toInt d queue).m_disks, r.isNull = false := by
  induction queue with
  | nil => intro d h; simpa [timerEvent] using h
  | cons e rest ih =>
    obtain ⟨dev, db⟩ := e
    intro d h
    exact ih _ (valid_handleDevice toInt d dev db h)

theorem valid_ticks (toInt : String → Int) (queues : List (List (UdevDevice × UdevDb))) :
    ∀ d : KDiskManagerPrivate, (∀ r ∈ d.m_disks, r.isNull = false) →
      ∀ r ∈ (ticks toInt d queues).m_disks, r.isNull = false := by
  induction queues with
  | nil => intro d h; simpa [ticks] using h
  | cons q later ih =>
    intro d h
    apply ih
    unfold tick
    split
    · exact valid_timerEvent toInt q d h
    · exact h

/-- C5: after the startup population and after any number of drains of any
device events, with any udev database behind each probe, every record that
`disks()` returns has `isNull() == false`. -/
theorem C5_registry_holds_valid_records (toInt : String → Int) (udevOk monitorOk : Bool)
    (entries : List (String × UdevDb)) (queues : List (List (UdevDevice × UdevDb))) :
    ∀ r ∈ disks (ticks toInt (create toInt udevOk monitorOk entries) queues),
      r.isNull = false :=
  valid_ticks toInt queues _ (valid_create toInt udevOk monitorOk entries)

/-- A startup with one good and one unknown entry, then an add event of an
unknown device and a change event: the record left in `disks()` is valid. -/
theorem C5_registry_holds_valid_records_witness :
    sdb1 "backup" ∈ disks (ticks sampleToInt
      (create sampleToInt true true [("sdb1", sdb1Db "data"), ("loop0", sdb1Db "data")])
      [[(⟨some "/dev/sdc", some "add"⟩, sdb1Db "data"),
        (⟨some "/dev/sdb1", some "change"⟩, sdb1Db "backup")]]) ∧
    (sdb1 "backup").isNull = false :=
  ⟨by decide,
   C5_registry_holds_valid_records sampleToInt true true
    [("sdb1", sdb1Db "data"), ("loop0", sdb1Db "data")]
    [[(⟨some "/dev/sdc", some "add"⟩, sdb1Db "data"),
      (⟨some "/dev/sdb1", some "change"⟩, sdb1Db "backup")]] (sdb1 "backup") (by decide)⟩

end Registry

section MountController

/-- C6: for a valid record whose device name `mounted` finds in the mount table,
and for any directory argument, `mount` returns true and performs no action at
all: no directory is created and the mount system call is not made. -/
theorem C6_mount_already_mounted (h : Host) (disk : KDiskInfo) (directory : String)
    (hv : disk.isNull = false) (hm : mounted h disk.name = Except.ok true) :
    mount h disk directory = Except.ok ⟨true, []⟩ := by
  simp [mount, hv, hm]

/-- The device `/dev/sdb1` is in the mount table: `mount` with the default and
with an explicit directory returns true without any action. -/
theorem C6_mount_already_mounted_witness :
    mount (sampleHost mountsWithSdb1) (sdb1 "data") "" = Except.ok ⟨true, []⟩ ∧
    mount (sampleHost mountsWithSdb1) (sdb1 "data") "/media/other" = Except.ok ⟨true, []⟩ :=
  ⟨C6_mount_already_mounted (sampleHost mountsWithSdb1) (sdb1 "data") "" (by decide) (by decide),
   C6_mount_already_mounted (sampleHost mountsWithSdb1) (sdb1 "data") "/media/other"
    (by decide) (by decide)⟩

/-- C7: for a valid record whose `mountpoint` is the empty string, `unmount`
returns true and performs no action; and whenever `unmount` makes the
`umount2` call, that call is its only action, it has the flag `MNT_DETACH`, and
its path is the non-empty mount point that `mountpoint` resolves from the
mount table of that moment. -/
theorem C7_unmount_not_mounted (h : Host) (disk : KDiskInfo) :
    (disk.isNull = false → mountpoint h disk.name = Except.ok "" →
      unmount h disk = Except.ok ⟨true, []⟩) ∧
    (∀ (out : Outcome) (target : String) (flags : Nat),
      unmount h disk = Except.ok out → Effect.umount2Call target flags ∈ out.effects →
      mountpoint h disk.name = Except.ok target ∧ target ≠ "" ∧ flags = MNT_DETACH ∧
        out.effects = [Effect.umount2Call target MNT_DETACH]) := by
  constructor
  · intro hv hm
    simp [unmount, hv, hm, isEmpty]
  · intro out target flags hout hmem
    unfold unmount at hout
    cases hv : disk.isNull
    · rw [hv] at hout
      simp only [Bool.false_eq_true, if_false] at hout
      cases hm : mountpoint h disk.name with
      | error e => rw [hm] at hout; simp at hout
      | ok mountdir =>
        rw [hm] at hout
        simp only at hout
        by_cases he : isEmpty mountdir = true
        · rw [if_pos he] at hout
          cases hout
          simp at hmem
        · rw [if_neg he] at hout
          have hne : mountdir ≠ "" := by simpa [isEmpty] using he
          split at hout <;> cases hout <;>
            simp only [List.mem_singleton, Effect.umount2Call.injEq] at hmem <;>
            obtain ⟨rfl, rfl⟩ := hmem <;> exact ⟨rfl, hne, rfl, rfl⟩
    · rw [hv] at hout
      simp only [if_true] at hout
      cases hout
      simp at hmem

/-- With `/dev/sdb1` absent from the mount table `unmount` does nothing and
returns true; with it present the one `umount2` call gets `/media/usb`. -/
theorem C7_unmount_not_mounted_witness :
    unmount (sampleHost mountsWithoutSdb1) (sdb1 "data") = Except.ok ⟨true, []⟩ ∧
    mountpoint (sampleHost mountsWithSdb1) "/dev/sdb1" = Except.ok "/media/usb" :=
  ⟨(C7_unmount_not_mounted (sampleHost mountsWithoutSdb1) (sdb1 "data")).1
      (by decide) (by decide),
   ((C7_unmount_not_mounted (sampleHost mountsWithSdb1) (sdb1 "data")).2
      ⟨true, [Effect.umount2Call "/media/usb" MNT_DETACH]⟩ "/media/usb" MNT_DETACH
      (by decide) (by decide)).1⟩

/-- C8: if the record is invalid, or `fstype` is not in `supported()`, or the
device is mounted, `mkfs` returns false and starts no subprocess (it performs
no action at all); and whenever `mkfs` starts a program, the record is valid,
`fstype` is in `supported()`, the device is not mounted, and the program is the
format tool of `fstype` run on the device node. -/
theorem C8_mkfs_guards (h : Host) (disk : KDiskInfo) (fstype : String) :
    (disk.isNull = true ∨ fstype ∉ supported h ∨ mounted h disk.name = Except.ok true →
      mkfs h disk fstype = Except.ok ⟨false, []⟩) ∧
    (∀ (out : Outcome) (program : String) (arguments : List String),
      mkfs h disk fstype = Except.ok out →
      Effect.startProcess program arguments ∈ out.effects →
      disk.isNull = false ∧ fstype ∈ supported h ∧ mounted h disk.name = Except.ok false ∧
        program = (if fstype = "swap" then "mkswap" else "mkfs." ++ fstype) ∧
        arguments = [disk.name]) := by
  constructor
  · intro hpre
    unfold mkfs
    cases hv : disk.isNull
    · by_cases hs : fstype ∈ supported h
      · rcases hpre with hn | hn | hm
        · rw [hv] at hn; cases hn
        · exact absurd hs hn
        · simp [hs, hm]
      · simp [hs]
    · simp
  · intro out program arguments hout hmem
    unfold mkfs at hout
    cases hv : disk.isNull
    · rw [hv] at hout
      simp only [Bool.false_eq_true, if_false] at hout
      by_cases hs : fstype ∈ supported h
      · have hc : (!(supported h).contains fstype) = false := by simp [hs]
        rw [hc] at hout
        simp only [Bool.false_eq_true, if_false] at hout
        cases hm : mounted h disk.name with
        | error e => rw [hm] at hout; simp at hout
        | ok b =>
          rw [hm] at hout
          cases b
          · simp only at hout
            generalize (if fstype = "swap" then "mkswap" else "mkfs." ++ fstype) = tool at hout ⊢
            split at hout <;> cases hout <;>
              simp only [List.mem_singleton, Effect.startProcess.injEq] at hmem <;>
              exact ⟨rfl, hs, rfl, hmem.1, hmem.2⟩
          · simp only at hout
            cases hout
            simp at hmem
      · have hc : (!(supported h).contains fstype) = true := by simp [hs]
        rw [hc] at hout
        simp only [if_true] at hout
        cases hout
        simp at hmem
    · rw [hv] at hout
      simp only [if_true] at hout
      cases hout
      simp at hmem

/-- The three guards of `mkfs` on concrete calls (a null record, the type
`zfs`, the mounted `/dev/sdb1`), and the one started program of a call that
passes them. -/
theorem C8_mkfs_guards_witness :
    mkfs (sampleHost mountsWithoutSdb1) KDiskInfo.null "ext4" = Except.ok ⟨false, []⟩ ∧
    mkfs (sampleHost mountsWithoutSdb1) (sdb1 "data") "zfs" = Except.ok ⟨false, []⟩ ∧
    mkfs (sampleHost mountsWithSdb1) (sdb1 "data") "ext4" = Except.ok ⟨false, []⟩ ∧
    mounted (sampleHost mountsWithoutSdb1) (sdb1 "data").name = Except.ok false :=
  ⟨(C8_mkfs_guards (sampleHost mountsWithoutSdb1) KDiskInfo.null "ext4").1
      (Or.inl (by decide)),
   (C8_mkfs_guards (sampleHost mountsWithoutSdb1) (sdb1 "data") "zfs").1
      (Or.inr (Or.inl (by decide))),
   (C8_mkfs_guards (sampleHost mountsWithSdb1) (sdb1 "data") "ext4").1
      (Or.inr (Or.inr (by decide))),
   ((C8_mkfs_guards (sampleHost mountsWithoutSdb1) (sdb1 "data") "ext4").2
      ⟨true, [Effect.startProcess "mkfs.ext4" ["/dev/sdb1"]]⟩ "mkfs.ext4" ["/dev/sdb1"]
      (by decide) (by decide)).2.2.1⟩

/-- C10: `fancySize` is `unknown` for a size of 0 or less, the size itself
followed by ` Kb` from 1 to 998, the size divided by 1000 (truncating) followed
by ` Mb` from 999 to 999998, and the size divided by 1000000 (truncating)
followed by ` Gb` from 999999 on. -/
theorem C10_fancySize_units (r : KDiskInfo) :
    (r.size ≤ 0 → r.fancySize = "unknown") ∧
    (1 ≤ r.size ∧ r.size ≤ 998 → r.fancySize = toString r.size ++ " Kb") ∧
    (999 ≤ r.size ∧ r.size ≤ 999998 →
      r.fancySize = toString (Int.tdiv r.size 1000) ++ " Mb") ∧
    (999999 ≤ r.size → r.fancySize = toString (Int.tdiv r.size 1000000) ++ " Gb") := by
  refine ⟨?_, ?_, ?_, ?_⟩
  · intro h0
    have : r.size < 1 := by omega
    simp [KDiskInfo.fancySize, this]
  · rintro ⟨h1, h2⟩
    have a : ¬ r.size < 1 := by omega
    have b : r.size < 999 := by omega
    simp [KDiskInfo.fancySize, a, b]
  · rintro ⟨h1, h2⟩
    have a : ¬ r.size < 1 := by omega
    have b : ¬ r.size < 999 := by omega
    have c : r.size < 999999 := by omega
    simp [KDiskInfo.fancySize, a, b, c]
  · intro h1
    have a : ¬ r.size < 1 := by omega
    have b : ¬ r.size < 999 := by omega
    have c : ¬ r.size < 999999 := by omega
    simp [KDiskInfo.fancySize, a, b, c]

/-- The renderings at 0, at a negative size and on both sides of the two unit
boundaries. -/
theorem C10_fancySize_units_witness :
    KDiskInfo.fancySize { sdb1 "data" with size := 0 } = "unknown" ∧
    KDiskInfo.fancySize { sdb1 "data" with size := -4 } = "unknown" ∧
    KDiskInfo.fancySize { sdb1 "data" with size := 1 } = "1 Kb" ∧
    KDiskInfo.fancySize { sdb1 "data" with size := 998 } = "998 Kb" ∧
    KDiskInfo.fancySize { sdb1 "data" with size := 999 } = "0 Mb" ∧
    KDiskInfo.fancySize { sdb1 "data" with size := 999998 } = "999 Mb" ∧
    KDiskInfo.fancySize { sdb1 "data" with size := 999999 } = "0 Gb" ∧
    KDiskInfo.fancySize { sdb1 "data" with size := 2500000 } = "2 Gb" :=
  ⟨(C10_fancySize_units { sdb1 "data" with size := 0 }).1 (by decide),
   (C10_fancySize_units { sdb1 "data" with size := -4 }).1 (by decide),
   ((C10_fancySize_units { sdb1 "data" with size := 1 }).2.1 (by decide)).trans (by decide),
   ((C10_fancySize_units { sdb1 "data" with size := 998 }).2.1 (by decide)).trans (by decide),
   ((C10_fancySize_units { sdb1 "data" with size := 999 }).2.2.1 (by decide)).trans (by decide),
   ((C10_fancySize_units { sdb1 "data" with size := 999998 }).2.2.1 (by decide)).trans
     (by decide),
   ((C10_fancySize_units { sdb1 "data" with size := 999999 }).2.2.2 (by decide)).trans
     (by decide),
   ((C10_fancySize_units { sdb1 "data" with size := 2500000 }).2.2.2 (by decide)).trans
     (by decide)⟩

end MountController

section MountTable

theorem readLine_snd_length (file : List Char) :
    (readLine file).2.length ≤ file.length - 1 := by
  induction file with
  | nil => simp [readLine]
  | cons c cs ih =>
    by_cases hc : c = '\n'
    · simp [readLine, hc]
    · simp only [readLine, hc, if_false, List.length_cons, Nat.add_sub_cancel]
      omega

theorem fileLines_eq_readLine (file : List Char) :
    fileLines file =
      (readLine file).1 ::
        (if (readLine file).2 = [] then [] else fileLines (readLine file).2) := by
  induction file with
  | nil => simp [fileLines, readLine]
  | cons c cs ih =>
    by_cases hc : c = '\n'
    · by_cases hcs : cs = [] <;> simp [fileLines, readLine, hc, hcs]
    · simp only [fileLines, readLine, hc, if_false]
      rw [ih]

/-- With more fuel than the file has characters the loop of `mountpoint` does
not run out: it is the line by line scan. -/
theorem mountpointLoop_eq_scanLines (pattern : List Char → Bool) :
    ∀ (fuel : Nat) (file result : List Char), file.length < fuel →
      mountpointLoop pattern fuel file result = scanLines pattern (fileLines file) result := by
  intro fuel
  induction fuel with
  | zero => intro file result h; omega
  | succ fuel ih =>
    intro file result hlen
    have hrest := readLine_snd_length file
    rw [fileLines_eq_readLine file]
    simp only [mountpointLoop, scanLines]
    by_cases hr : (readLine file).2 = []
    · simp [hr, scanLines]
    · have hlt : (readLine file).2.length < fuel := by
        have : 0 < (readLine file).2.length := List.length_pos.mpr hr
        omega
      have he : (readLine file).2.isEmpty = false := by simpa using hr
      simp only [hr, if_false, he, Bool.false_eq_true]
      split
      · split
        · rfl
        · exact ih _ _ hlt
      · exact ih _ _ hlt

theorem scanLines_ne_outOfFuel (pattern : List Char → Bool) (lines : List (List Char)) :
    ∀ result : List Char, scanLines pattern lines result ≠ Except.error Fault.outOfFuel := by
  induction lines with
  | nil => intro result; simp [scanLines]
  | cons l ls ih =>
    intro result
    cases hp : pattern l
    · simpa [scanLines, hp] using ih result
    · simp only [scanLines, hp, if_true, fieldAt1]
      cases (split ' ' l)[1]? with
      | none => simp
      | some field => simpa using ih field

/-- The iteration bound of `mountpoint` is never reached: the call ends with a
result or with the out of range access. -/
theorem mountpoint_ne_outOfFuel (h : Host) (disk : String) :
    mountpoint h disk ≠ Except.error Fault.outOfFuel := by
  unfold mountpoint
  cases h.procMounts with
  | none => simp
  | some mounts =>
    simp only
    rw [mountpointLoop_eq_scanLines _ _ _ _ (Nat.lt_succ_self _)]
    have hs := scanLines_ne_outOfFuel
      (fun line => h.regExpMatch ("^" ++ disk ++ "\\s") (String.mk line))
      (fileLines mounts.data) []
    revert hs
    cases scanLines (fun line => h.regExpMatch ("^" ++ disk ++ "\\s") (String.mk line))
      (fileLines mounts.data) [] with
    | error e => intro hs; simpa using hs
    | ok v => intro _; simp

theorem split_run (sep : Char) (a b : List Char) (ha : sep ∉ a) :
    split sep (a ++ sep :: b) = a :: split sep b := by
  induction a with
  | nil => simp [split]
  | cons x a ih =>
    have hx : x ≠ sep := fun e => ha (by simp [e])
    have ha' : sep ∉ a := fun e => ha (by simp [e])
    simp [split, hx, ih ha']

theorem wsFields_run (a b : List Char) (w : Char) (hne : a ≠ [])
    (ha : ∀ c ∈ a, isSpace c = false) (hw : isSpace w = true) :
    wsFields (a ++ w :: b) = a :: wsFields b := by
  induction a with
  | nil => exact absurd rfl hne
  | cons x a ih =>
    have hx : isSpace x = false := ha x (by simp)
    cases a with
    | nil =>
      rw [List.cons_append, List.nil_append, wsFields, wsFields]
      simp [hx, hw, endsField]
    | cons y a =>
      have hy : isSpace y = false := ha y (by simp)
      have ih' := ih (by simp) (fun c hc => ha c (List.mem_cons_of_mem _ hc))
      rw [List.cons_append, wsFields, ih']
      simp [hx, hy, endsField]

theorem isSpace_space : isSpace ' ' = true := by decide

theorem space_not_mem (a : List Char) (ha : ∀ c ∈ a, isSpace c = false) : ' ' ∉ a := by
  intro hmem
  have := ha _ hmem
  rw [isSpace_space] at this
  cases this

theorem fieldAt1_procMountsLine (dev field rest : List Char)
    (hd : ∀ c ∈ dev, isSpace c = false) (hf : ∀ c ∈ field, isSpace c = false) :
    fieldAt1 (dev ++ ' ' :: (field ++ ' ' :: rest)) = Except.ok field := by
  rw [fieldAt1, split_run _ _ _ (space_not_mem dev hd), split_run _ _ _ (space_not_mem field hf)]
  simp

theorem wsFields_procMountsLine (dev field rest : List Char) (hdne : dev ≠ [])
    (hd : ∀ c ∈ dev, isSpace c = false) (hfne : field ≠ [])
    (hf : ∀ c ∈ field, isSpace c = false) :
    (wsFields (dev ++ ' ' :: (field ++ ' ' :: rest)))[1]? = some field := by
  rw [wsFields_run dev _ ' ' hdne hd isSpace_space,
    wsFields_run field _ ' ' hfne hf isSpace_space]
  simp

theorem lastSuch_eq_none {α : Type} (p : α → Bool) (l : List α) :
    lastSuch p l = none ↔ ∀ a ∈ l, p a = false := by
  induction l with
  | nil => simp [lastSuch]
  | cons a as ih =>
    simp only [lastSuch, List.mem_cons, forall_eq_or_imp]
    cases h : lastSuch p as with
    | none =>
      have hall := ih.mp h
      cases hp : p a
      · simpa using hall
      · simp
    | some b =>
      constructor
      · intro hc; cases hc
      · rintro ⟨_, hall⟩
        rw [ih.mpr hall] at h
        cases h

theorem lastSuch_eq_some {α : Type} (p : α → Bool) (l : List α) (b : α)
    (h : lastSuch p l = some b) : b ∈ l ∧ p b = true := by
  induction l with
  | nil => simp [lastSuch] at h
  | cons a as ih =>
    simp only [lastSuch] at h
    cases h' : lastSuch p as with
    | none =>
      rw [h'] at h
      cases hp : p a
      · simp [hp] at h
      · simp [hp] at h
        subst h
        exact ⟨by simp, hp⟩
    | some c =>
      rw [h'] at h
      simp only [Option.some.injEq] at h
      subst h
      exact ⟨List.mem_cons_of_mem _ (ih h').1, (ih h').2⟩

/-- When every matching line has a field at index 1, given by `g`, the scan
ends with the field of the last matching line. -/
theorem scanLines_eq_lastSuch (pattern : List Char → Bool) (g : List Char → List Char)
    (lines : List (List Char)) :
    (∀ l ∈ lines, pattern l = true → fieldAt1 l = Except.ok (g l)) →
    ∀ result : List Char, scanLines pattern lines result =
      Except.ok (match lastSuch pattern lines with
        | some l => g l
        | none => result) := by
  induction lines with
  | nil => intro _ result; simp [scanLines, lastSuch]
  | cons l ls ih =>
    intro hall result
    have ih' := ih (fun x hx => hall x (List.mem_cons_of_mem _ hx))
    cases hp : pattern l
    · simp only [scanLines, hp, Bool.false_eq_true, if_false, lastSuch]
      rw [ih' result]
      cases lastSuch pattern ls <;> rfl
    · simp only [scanLines, hp, if_true, lastSuch]
      rw [hall l (by simp) hp]
      simp only
      rw [ih' (g l)]
      cases lastSuch pattern ls <;> rfl

theorem not_special_ne (d : Char) (hd : isRegExpSpecial d = false) :
    d ≠ '\\' ∧ d ≠ '.' := by
  constructor
  · intro e
    rw [e] at hd
    exact absurd hd (by decide)
  · intro e
    rw [e] at hd
    exact absurd hd (by decide)

theorem simpleMatchHere_eq (disk : List Char) (hd : ∀ c ∈ disk, isRegExpSpecial c = false) :
    ∀ line : List Char,
      simpleMatchHere (disk ++ ['\\', 's']) line = beginsWithThenSpace disk line := by
  induction disk with
  | nil =>
    intro line
    cases line <;> simp [simpleMatchHere, beginsWithThenSpace]
  | cons d ds ih =>
    intro line
    have hne := (not_special_ne d (hd d (by simp))).1
    have hdot := (not_special_ne d (hd d (by simp))).2
    have hds : ∀ c ∈ ds, isRegExpSpecial c = false := fun c hc => hd c (List.mem_cons_of_mem _ hc)
    cases line with
    | nil => simp [simpleMatchHere, beginsWithThenSpace]
    | cons c cs =>
      have ih' := ih hds cs
      cases ds with
      | nil =>
        simp only [List.nil_append] at ih'
        simp only [List.cons_append, List.nil_append, simpleMatchHere, hne, hdot, if_false,
          beginsWithThenSpace, ih', decide_False, Bool.false_or]
      | cons e es =>
        simp only [List.cons_append] at ih'
        simp only [List.cons_append, simpleMatchHere, hne, hdot, if_false, beginsWithThenSpace,
          decide_False, Bool.false_or]
        exact congrArg (fun b => decide (d = c) && b) ih'

theorem simpleAtoms_name (disk : List Char) (hd : ∀ c ∈ disk, isRegExpSpecial c = false) :
    simpleAtoms (disk ++ ['\\', 's']) = true := by
  induction disk with
  | nil => simp [simpleAtoms]
  | cons d ds ih =>
    have hsp : isRegExpSpecial d = false := hd d (by simp)
    have hne := (not_special_ne d hsp).1
    have ih' := ih (fun c hc => hd c (List.mem_cons_of_mem _ hc))
    cases ds with
    | nil =>
      simp only [List.nil_append] at ih'
      simp only [List.cons_append, List.nil_append, simpleAtoms, hne, if_false, hsp, ih']
      simp
    | cons e es =>
      simp only [List.cons_append] at ih'
      simp only [List.cons_append, simpleAtoms, hne, if_false, hsp]
      simpa using ih'

/-- For a device node name without a character that is special in a regular
expression, `simpleRegExp` reads the pattern of `mountpoint` as: the line
begins with the name followed by whitespace. -/
theorem simpleRegExp_eq (disk : String) (hd : ∀ c ∈ disk.data, isRegExpSpecial c = false)
    (line : String) :
    simpleRegExp ("^" ++ disk ++ "\\s") line = beginsWithThenSpace disk.data line.data := by
  have e : ("^" ++ disk ++ "\\s").data = '^' :: (disk.data ++ ['\\', 's']) := by
    simp [String.data_append]
  simp only [simpleRegExp, e, simpleAtoms_name disk.data hd, Bool.true_and]
  exact simpleMatchHere_eq disk.data hd line.data

/-- What `mountpoint` does when the name is read literally: if the pattern
built from the name matches exactly the lines that begin with the name
followed by a whitespace character (as it does for a name without a character
that is special in a regular expression), and every such line of the mount
table has the shape of a `/proc/mounts` line, then `mountpoint` returns the
second whitespace delimited field of the last such line, it returns the empty
string if and only if no line begins that way, and `mounted` is true exactly
when such a line exists. -/
theorem mountpoint_of_literal_name (h : Host) (mounts disk : String)
    (hopen : h.procMounts = some mounts)
    (hrx : ∀ line : String,
      h.regExpMatch ("^" ++ disk ++ "\\s") line = beginsWithThenSpace disk.data line.data)
    (hfmt : ∀ l ∈ fileLines mounts.data, beginsWithThenSpace disk.data l = true →
      ProcMountsLine l) :
    (∀ l : List Char,
      lastSuch (beginsWithThenSpace disk.data) (fileLines mounts.data) = some l →
      ∃ field : List Char, (wsFields l)[1]? = some field ∧ field ≠ [] ∧
        mountpoint h disk = Except.ok (String.mk field)) ∧
    (mountpoint h disk = Except.ok "" ↔
      ∀ l ∈ fileLines mounts.data, beginsWithThenSpace disk.data l = false) ∧
    mounted h disk =
      Except.ok ((fileLines mounts.data).any (beginsWithThenSpace disk.data)) := by
  have hpat : (fun line => h.regExpMatch ("^" ++ disk ++ "\\s") (String.mk line)) =
      beginsWithThenSpace disk.data := funext (fun line => hrx ⟨line⟩)
  have hfield : ∀ l ∈ fileLines mounts.data, beginsWithThenSpace disk.data l = true →
      fieldAt1 l = Except.ok (((wsFields l)[1]?).getD []) ∧
      (wsFields l)[1]? = some (((wsFields l)[1]?).getD []) ∧ ((wsFields l)[1]?).getD [] ≠ [] := by
    intro l hl hp
    obtain ⟨dev, field, rest, rfl, hdne, hd, hfne, hf⟩ := hfmt l hl hp
    rw [wsFields_procMountsLine dev field rest hdne hd hfne hf,
      fieldAt1_procMountsLine dev field rest hd hf]
    exact ⟨rfl, rfl, hfne⟩
  have hscan := scanLines_eq_lastSuch (beginsWithThenSpace disk.data)
    (fun l => ((wsFields l)[1]?).getD []) (fileLines mounts.data)
    (fun l hl hp => (hfield l hl hp).1) []
  have hmp : mountpoint h disk = Except.ok (String.mk
      (match lastSuch (beginsWithThenSpace disk.data) (fileLines mounts.data) with
        | some l => ((wsFields l)[1]?).getD []
        | none => [])) := by
    unfold mountpoint
    rw [hopen]
    simp only
    rw [hpat, mountpointLoop_eq_scanLines _ _ _ _ (Nat.lt_succ_self _), hscan]
  refine ⟨?_, ?_, ?_⟩
  · intro l hl
    have hmem := lastSuch_eq_some _ _ _ hl
    refine ⟨_, (hfield l hmem.1 hmem.2).2.1, (hfield l hmem.1 hmem.2).2.2, ?_⟩
    rw [hmp, hl]
  · rw [hmp]
    cases hl : lastSuch (beginsWithThenSpace disk.data) (fileLines mounts.data) with
    | none =>
      simp only
      exact ⟨fun _ => (lastSuch_eq_none _ _).mp hl, fun _ => trivial⟩
    | some l =>
      have hmem := lastSuch_eq_some _ _ _ hl
      simp only
      constructor
      · intro he
        have hd : ((wsFields l)[1]?).getD [] = [] := by
          have := congrArg (fun r => match r with
            | Except.ok (v : String) => v.data
            | Except.error (_ : Fault) => []) he
          simpa using this
        exact absurd hd (hfield l hmem.1 hmem.2).2.2
      · intro hall
        have := hall l hmem.1
        rw [hmem.2] at this
        cases this
  · unfold mounted
    rw [hmp]
    cases hl : lastSuch (beginsWithThenSpace disk.data) (fileLines mounts.data) with
    | none =>
      have hall := (lastSuch_eq_none _ _).mp hl
      have hany : (fileLines mounts.data).any (beginsWithThenSpace disk.data) = false := by
        rw [List.any_eq_false]
        intro x hx
        simp [hall x hx]
      simp only [hany]
      rfl
    | some l =>
      have hmem := lastSuch_eq_some _ _ _ hl
      have hany : (fileLines mounts.data).any (beginsWithThenSpace disk.data) = true :=
        List.any_eq_true.mpr ⟨l, hmem.1, hmem.2⟩
      have hd := (hfield l hmem.1 hmem.2).2.2
      have hemp : isEmpty (String.mk (((wsFields l)[1]?).getD [])) = false := by
        rw [isEmpty_eq_false_iff]
        intro he
        exact hd (congrArg String.data he)
      simp only [hany, hemp, Bool.not_false]

/-- On a table in the format of `/proc/mounts`, `mountpoint` gives `/media/usb`
for the mounted `/dev/sdb1`, a name that has no special character. -/
theorem mountpoint_of_literal_name_sdb1 :
    mountpoint (sampleHost mountsWithSdb1) "/dev/sdb1" = Except.ok "/media/usb" ∧
    mounted (sampleHost mountsWithSdb1) "/dev/sdb1" = Except.ok true :=
  have hthm := mountpoint_of_literal_name (sampleHost mountsWithSdb1) mountsWithSdb1 "/dev/sdb1"
    rfl (fun line => simpleRegExp_eq "/dev/sdb1" (by decide) line)
    (by
      intro l hl hp
      have e : fileLines mountsWithSdb1.data =
          ["/dev/sda2 / ext4 rw 0 0\n".data, "/dev/sdb1 /media/usb ext4 rw 0 0\n".data] := by
        decide
      rw [e] at hl
      simp only [List.mem_cons, List.mem_singleton, List.not_mem_nil, or_false] at hl
      rcases hl with rfl | rfl
      · exact absurd hp (by decide)
      · exact ⟨"/dev/sdb1".data, "/media/usb".data, "ext4 rw 0 0\n".data,
          by decide, by decide, by decide, by decide, by decide⟩)
  ⟨by
    obtain ⟨field, hf, _, hm⟩ := hthm.1 "/dev/sdb1 /media/usb ext4 rw 0 0\n".data (by decide)
    have e : field = "/media/usb".data :=
      Option.some.inj (hf.symm.trans (by decide : (wsFields
        "/dev/sdb1 /media/usb ext4 rw 0 0\n".data)[1]? = some "/media/usb".data))
    rw [hm, e],
   hthm.2.2.trans (by decide)⟩

theorem mountsWithPmem_format : ∀ l ∈ fileLines mountsWithPmem.data, ProcMountsLine l := by
  intro l hl
  have e : fileLines mountsWithPmem.data =
      ["/dev/sda2 / ext4 rw 0 0\n".data, "/dev/pmem0p1 /data ext4 rw 0 0\n".data] := by
    decide
  rw [e] at hl
  simp only [List.mem_cons, List.mem_singleton, List.not_mem_nil, or_false] at hl
  rcases hl with rfl | rfl
  · exact ⟨"/dev/sda2".data, "/".data, "ext4 rw 0 0\n".data,
      by decide, by decide, by decide, by decide, by decide⟩
  · exact ⟨"/dev/pmem0p1".data, "/data".data, "ext4 rw 0 0\n".data,
      by decide, by decide, by decide, by decide, by decide⟩

/-- C9 (evaluation of the code): the mount table has the lines of `/dev/sda2`
and of `/dev/pmem0p1`, mounted on `/data`, in the format of `/proc/mounts`, and
no line of it begins with `/dev/pmem0.1` followed by whitespace. The pattern
`^/dev/pmem0.1\s`, in which the name stands unescaped, has only ordinary
characters, `.` and `\s`, and its `.` matches the `p` of `/dev/pmem0p1`: so
`mountpoint` of `/dev/pmem0.1` returns `/data` and not the empty string,
`mounted` returns true, and `unmount` of the record of `/dev/pmem0.1` detaches
`/data`, the mount point of the other device. -/
theorem C9_unescaped_name_matches_other_device :
    (∀ l ∈ fileLines mountsWithPmem.data, ProcMountsLine l) ∧
    (fileLines mountsWithPmem.data).any (beginsWithThenSpace "/dev/pmem0.1".data) = false ∧
    simplePattern ("^" ++ "/dev/pmem0.1" ++ "\\s") = true ∧
    mountpoint (sampleHost mountsWithPmem) "/dev/pmem0.1" = Except.ok "/data" ∧
    mounted (sampleHost mountsWithPmem) "/dev/pmem0.1" = Except.ok true ∧
    unmount (sampleHost mountsWithPmem) pmem0_1 =
      Except.ok ⟨true, [Effect.umount2Call "/data" MNT_DETACH]⟩ :=
  ⟨mountsWithPmem_format, by decide, by decide, by decide, by decide, by decide⟩

end MountTable

section IgnoredEvents

open KDiskManagerPrivate

theorem removeScan_no_match (name : String) (d : KDiskManagerPrivate) (scan : List KDiskInfo)
    (h : ∀ r ∈ scan, r.name ≠ name) : removeScan name d scan = d := by
  induction scan with
  | nil => rfl
  | cons i rest ih =>
    have hi : i.name ≠ name := h i (by simp)
    simp only [removeScan, hi, if_false]
    exact ih (fun r hr => h r (List.mem_cons_of_mem _ hr))

/-- C13: a remove event whose device node name is the name of no record of the
registry, a bind or unbind event, an event with any action other than add,
change and remove (a missing action included), and an add or change event
whose probe is null each leave the whole state as it was: the registry is the
same list in the same order and no signal is emitted. -/
theorem C13_events_without_effect (toInt : String → Int) (d : KDiskManagerPrivate)
    (dev : UdevDevice) (db : UdevDb) :
    (dev.action = some "remove" → (∀ r ∈ disks d, r.name ≠ fromCStr dev.devname) →
      handleDevice toInt d dev db = d) ∧
    (dev.action = some "bind" ∨ dev.action = some "unbind" →
      handleDevice toInt d dev db = d) ∧
    (dev.action ≠ some "add" → dev.action ≠ some "change" → dev.action ≠ some "remove" →
      handleDevice toInt d dev db = d) ∧
    (dev.action = some "add" ∨ dev.action = some "change" →
      (info toInt d db (fromCStr dev.devname)).isNull = true →
      handleDevice toInt d dev db = d) := by
  refine ⟨?_, ?_, ?_, ?_⟩
  · intro ha hno
    rw [handleDevice_remove toInt d dev db ha]
    exact removeScan_no_match _ d _ hno
  · intro ha
    rcases ha with ha | ha <;> simp [handleDevice, ha]
  · intro h1 h2 h3
    simp [handleDevice, h1, h2, h3]
  · intro ha hnull
    rcases ha with ha | ha <;> simp [handleDevice, ha, hnull]

/-- The four kinds of event on a registry that holds `/dev/sdb1`: a remove of
`/dev/sdc`, a bind, an action `move`, and an add of the unknown `/dev/sdc`. -/
theorem C13_events_without_effect_witness :
    disks (handleDevice sampleToInt { emptyManager with m_disks := [sdb1 "data"] }
      ⟨some "/dev/sdc", some "remove"⟩ (sdb1Db "data")) = [sdb1 "data"] ∧
    (handleDevice sampleToInt { emptyManager with m_disks := [sdb1 "data"] }
      ⟨some "/dev/sdb1", some "bind"⟩ (sdb1Db "data")).emitted = [] ∧
    disks (handleDevice sampleToInt { emptyManager with m_disks := [sdb1 "data"] }
      ⟨some "/dev/sdb1", some "move"⟩ (sdb1Db "data")) = [sdb1 "data"] ∧
    disks (handleDevice sampleToInt { emptyManager with m_disks := [sdb1 "data"] }
      ⟨some "/dev/sdc", some "add"⟩ (sdb1Db "data")) = [sdb1 "data"] :=
  ⟨congrArg disks ((C13_events_without_effect sampleToInt
      { emptyManager with m_disks := [sdb1 "data"] }
      ⟨some "/dev/sdc", some "remove"⟩ (sdb1Db "data")).1 rfl (by decide)),
   congrArg KDiskManagerPrivate.emitted ((C13_events_without_effect sampleToInt
      { emptyManager with m_disks := [sdb1 "data"] }
      ⟨some "/dev/sdb1", some "bind"⟩ (sdb1Db "data")).2.1 (Or.inl rfl)),
   congrArg disks ((C13_events_without_effect sampleToInt
      { emptyManager with m_disks := [sdb1 "data"] }
      ⟨some "/dev/sdb1", some "move"⟩ (sdb1Db "data")).2.2.1
      (by decide) (by decide) (by decide)),
   congrArg disks ((C13_events_without_effect sampleToInt
      { emptyManager with m_disks := [sdb1 "data"] }
      ⟨some "/dev/sdc", some "add"⟩ (sdb1Db "data")).2.2.2 (Or.inl rfl) (by decide))⟩

end IgnoredEvents

section Supported

theorem swap_not_known : "swap" ∉ s_knownfstypes := by decide

theorem s_knownfstypes_nodup : s_knownfstypes.Nodup := by decide

/-- C11: whatever the host resolves, a type other than `swap` is in
`supported()` exactly when it is one of the ten known types and both
`fsck.<type>` and `mkfs.<type>` are found; `swap` is in `supported()` exactly
when `mkswap` is found; and `supported()` has no duplicate entry. -/
theorem C11_supported_iff (h : Host) :
    (∀ t : String, t ≠ "swap" →
      (t ∈ supported h ↔
        t ∈ s_knownfstypes ∧ h.findExecutable ("fsck." ++ t) ≠ "" ∧
          h.findExecutable ("mkfs." ++ t) ≠ "")) ∧
    ("swap" ∈ supported h ↔ h.findExecutable "mkswap" ≠ "") ∧
    (supported h).Nodup := by
  refine ⟨?_, ?_, ?_⟩
  · intro t ht
    unfold supported
    rw [List.mem_append, List.mem_filter]
    have hsw : t ∉ (if (!isEmpty (h.findExecutable "mkswap")) = true then ["swap"] else []) := by
      split <;> simp [ht]
    rw [or_iff_left hsw]
    simp [isEmpty]
  · unfold supported
    rw [List.mem_append, List.mem_filter]
    have hk := swap_not_known
    by_cases hm : h.findExecutable "mkswap" = "" <;> simp [hk, hm, isEmpty]
  · unfold supported
    rw [List.nodup_append]
    refine ⟨(List.filter_sublist _).nodup s_knownfstypes_nodup, ?_, ?_⟩
    · split <;> simp
    · intro a ha hb
      have hk : a ∈ s_knownfstypes := (List.mem_filter.mp ha).1
      split at hb
      · rw [List.mem_singleton.mp hb] at hk
        exact swap_not_known hk
      · simp at hb

/-- On a host with `fsck.ext4`, `mkfs.ext4` and `mkswap` only, `supported()` is
`ext4` and `swap`: `ext4` is in it and `xfs` is not. -/
theorem C11_supported_iff_witness :
    supported (sampleHost mountsWithSdb1) = ["ext4", "swap"] ∧
    "ext4" ∈ supported (sampleHost mountsWithSdb1) ∧
    "xfs" ∉ supported (sampleHost mountsWithSdb1) :=
  ⟨by decide,
   ((C11_supported_iff (sampleHost mountsWithSdb1)).1 "ext4" (by decide)).mpr (by decide),
   fun hx => absurd
    (((C11_supported_iff (sampleHost mountsWithSdb1)).1 "xfs" (by decide)).mp hx).2.1
    (by decide)⟩

end Supported

section Rescan

theorem rescanLoop_step (h : Host) (partprobe partx : String) (disk : KDiskInfo)
    (rest : List KDiskInfo) (done : List Effect) (hd : disk.type ≠ KDiskType.Partition) :
    rescanLoop h partprobe partx (disk :: rest) done =
      if rescanMethodOk h partprobe partx disk then
        rescanLoop h partprobe partx rest (done ++ rescanMethodEffects h partprobe partx disk)
      else
        ⟨false, done ++ rescanMethodEffects h partprobe partx disk⟩ := by
  simp only [rescanLoop, hd, if_false, rescanMethodOk, rescanMethodEffects, rescanPath]
  by_cases h1 : (!isEmpty partprobe) = true
  · simp only [h1, if_true]
    by_cases e : h.exitCode partprobe [disk.name] = 0 <;> simp [e]
  · simp only [h1, if_false]
    by_cases h2 : (!isEmpty partx) = true
    · simp only [h2, if_true]
      by_cases e : h.exitCode partx ["-u", disk.name] = 0 <;> simp [e]
    · simp only [h2, if_false]
      by_cases e : h.openWriteOk ("/sys/block/" ++ fileName disk.name ++ "/device/rescan") = true
        <;> simp [e]

theorem rescanLoop_skip (h : Host) (partprobe partx : String) (disk : KDiskInfo)
    (rest : List KDiskInfo) (done : List Effect) (hd : disk.type = KDiskType.Partition) :
    rescanLoop h partprobe partx (disk :: rest) done = rescanLoop h partprobe partx rest done := by
  simp [rescanLoop, hd]

theorem rescanTargets_cons (disk : KDiskInfo) (rest : List KDiskInfo) :
    rescanTargets (disk :: rest) =
      if disk.type = KDiskType.Partition then rescanTargets rest
      else disk :: rescanTargets rest := by
  by_cases hd : disk.type = KDiskType.Partition <;> simp [rescanTargets, List.filter_cons, hd]

/-- The return value of the loop: true exactly when the method succeeds on
every record that is not a partition. -/
theorem rescanLoop_ret (h : Host) (partprobe partx : String) (l : List KDiskInfo) :
    ∀ done : List Effect, (rescanLoop h partprobe partx l done).ret = true ↔
      ∀ disk ∈ rescanTargets l, rescanMethodOk h partprobe partx disk = true := by
  induction l with
  | nil => intro done; simp [rescanLoop, rescanTargets]
  | cons disk rest ih =>
    intro done
    by_cases hd : disk.type = KDiskType.Partition
    · rw [rescanLoop_skip h partprobe partx disk rest done hd, rescanTargets_cons, if_pos hd]
      exact ih done
    · rw [rescanLoop_step h partprobe partx disk rest done hd, rescanTargets_cons, if_neg hd]
      cases hok : rescanMethodOk h partprobe partx disk
      · simp [hok]
      · simp only [if_true, List.mem_cons, forall_eq_or_imp, hok, true_and]
        exact ih _

/-- The loop on a snapshot whose first records, partitions aside, all succeed:
their actions are performed in order and the loop goes on with the rest. -/
theorem rescanLoop_append (h : Host) (partprobe partx : String) (before : List KDiskInfo) :
    ∀ (rest : List KDiskInfo) (done : List Effect),
      (∀ r ∈ rescanTargets before, rescanMethodOk h partprobe partx r = true) →
      rescanLoop h partprobe partx (before ++ rest) done =
        rescanLoop h partprobe partx rest
          (done ++ (rescanTargets before).flatMap (rescanMethodEffects h partprobe partx)) := by
  induction before with
  | nil => intro rest done _; simp [rescanTargets]
  | cons disk more ih =>
    intro rest done hok
    by_cases hd : disk.type = KDiskType.Partition
    · rw [rescanTargets_cons, if_pos hd] at hok ⊢
      rw [List.cons_append, rescanLoop_skip h partprobe partx disk _ done hd]
      exact ih rest done hok
    · rw [rescanTargets_cons, if_neg hd] at hok ⊢
      have h1 : rescanMethodOk h partprobe partx disk = true := hok disk (by simp)
      rw [List.cons_append, rescanLoop_step h partprobe partx disk _ done hd, if_pos h1,
        ih rest _ (fun r hr => hok r (List.mem_cons_of_mem _ hr))]
      simp [List.flatMap_cons, List.append_assoc]

/-- C12: for every registry snapshot and every host, `rescan` returns true
exactly when the rescan method succeeds on every record that is not a
partition; when it does, the actions are those of the method on each of these
records in snapshot order, partitions being skipped; and when the snapshot is
`before`, then a record that is not a partition and on which the method fails,
then `after`, with the method succeeding on the records of `before` that are
not partitions, `rescan` returns false and its actions are those on `before`
followed by the single failed run: nothing is done on a record of `after` and
the failed run is not repeated. -/
theorem C12_rescan_stops_at_first_failure (h : Host) (d : KDiskManagerPrivate) :
    ((rescan h d).ret = true ↔
      ∀ disk ∈ rescanTargets (disks d),
        rescanMethodOk h (h.findExecutable "partprobe") (h.findExecutable "partx") disk = true) ∧
    ((∀ disk ∈ rescanTargets (disks d),
        rescanMethodOk h (h.findExecutable "partprobe") (h.findExecutable "partx") disk = true) →
      rescan h d = ⟨true, (rescanTargets (disks d)).flatMap
        (rescanMethodEffects h (h.findExecutable "partprobe") (h.findExecutable "partx"))⟩) ∧
    (∀ (before : List KDiskInfo) (failing : KDiskInfo) (after : List KDiskInfo),
      disks d = before ++ failing :: after →
      (∀ r ∈ rescanTargets before,
        rescanMethodOk h (h.findExecutable "partprobe") (h.findExecutable "partx") r = true) →
      failing.type ≠ KDiskType.Partition →
      rescanMethodOk h (h.findExecutable "partprobe") (h.findExecutable "partx") failing = false →
      rescan h d = ⟨false,
        (rescanTargets before).flatMap
          (rescanMethodEffects h (h.findExecutable "partprobe") (h.findExecutable "partx")) ++
        rescanMethodEffects h (h.findExecutable "partprobe") (h.findExecutable "partx")
          failing⟩) := by
  refine ⟨rescanLoop_ret h _ _ (disks d) [], ?_, ?_⟩
  · intro hall
    have happ := rescanLoop_append h (h.findExecutable "partprobe") (h.findExecutable "partx")
      (disks d) [] [] hall
    rw [List.append_nil] at happ
    rw [rescan, happ]
    simp [rescanLoop]
  · intro before failing after hsplit hbefore hnp hfail
    rw [rescan, hsplit,
      rescanLoop_append h _ _ before (failing :: after) [] hbefore,
      rescanLoop_step h _ _ failing after _ hnp, hfail]
    simp

/-- With `partprobe` failing on `/dev/sdb`: the partition `/dev/sda1` is
skipped, `partprobe` runs on `/dev/sda` and on `/dev/sdb`, and `/dev/sdc` is
not reached. -/
theorem C12_rescan_stops_at_first_failure_witness :
    rescan partprobeHost fourDevices =
      ⟨false, [Effect.startProcess "/usr/sbin/partprobe" ["/dev/sda"],
        Effect.startProcess "/usr/sbin/partprobe" ["/dev/sdb"]]⟩ ∧
    (rescan partprobeHost { fourDevices with
      m_disks := [blockDevice "/dev/sda" KDiskType.Disk,
        blockDevice "/dev/sda1" KDiskType.Partition] }).ret = true :=
  ⟨((C12_rescan_stops_at_first_failure partprobeHost fourDevices).2.2
      [blockDevice "/dev/sda" KDiskType.Disk, blockDevice "/dev/sda1" KDiskType.Partition]
      (blockDevice "/dev/sdb" KDiskType.Disk) [blockDevice "/dev/sdc" KDiskType.Disk]
      rfl (by decide) (by decide) (by decide)).trans (by decide),
   ((C12_rescan_stops_at_first_failure partprobeHost { fourDevices with
      m_disks := [blockDevice "/dev/sda" KDiskType.Disk,
        blockDevice "/dev/sda1" KDiskType.Partition] }).1).mpr (by decide)⟩

end Rescan

end KBlockd
